import Mathlib

/-!
A shallow embedding of `order_manager.py`, a single-user interactive
order-management tool.  In-memory Python data (lists of dicts) is modelled
with typed records (`Item`, `Order`); console input is modelled as a list of
input lines consumed in order, a call that would block forever on `input()`
returning `none`; the two persisted JSON files are modelled by `FileContent`
(missing / unparseable / holding the JSON rendering of a list of orders),
with an explicit JSON value layer (`Json`, `encodeOrders`, `decodeOrders`)
bridging typed collections and file contents.
-/

/-- An item record `{"name": ..., "price": ..., "quantity": ...}`.
Prices and quantities are Python `int`s, hence `Int`. -/
structure Item where
  name : String
  price : Int
  quantity : Int
deriving DecidableEq, Repr

/-- An order record `{"order_id": ..., "customer": ..., "items": ...}`. -/
structure Order where
  order_id : String
  customer : String
  items : List Item
deriving DecidableEq, Repr

/-- Python `str.strip()` on the character list of a string. -/
def stripChars (cs : List Char) : List Char :=
  ((cs.dropWhile Char.isWhitespace).reverse.dropWhile Char.isWhitespace).reverse

/-- Python `str.strip()`. -/
def strip (s : String) : String := ⟨stripChars s.data⟩

/-- Python `str.upper()`. -/
def upper (s : String) : String := ⟨s.data.map Char.toUpper⟩

/-- Value of a nonempty all-digit character list, `none` otherwise. -/
def parseDigits (cs : List Char) : Option Nat :=
  if cs ≠ [] ∧ cs.all Char.isDigit then
    some (cs.foldl (fun a c => a * 10 + (c.toNat - 48)) 0)
  else
    none

/-- Python `int(s)`: surrounding whitespace ignored, an optional sign
followed by digits; any other input raises `ValueError`, modelled as
`none`. -/
def pyInt (s : String) : Option Int :=
  match stripChars s.data with
  | '+' :: rest => (parseDigits rest).map (fun n => (n : Int))
  | '-' :: rest => (parseDigits rest).map (fun n => -(n : Int))
  | cs => (parseDigits cs).map (fun n => (n : Int))

/-- A JSON value as produced by `json.dump` / consumed by `json.load`
(the fragment this program uses: strings, integers, arrays, objects). -/
inductive Json where
  | str : String → Json
  | num : Int → Json
  | arr : List Json → Json
  | obj : List (String × Json) → Json

/-- JSON rendering of an item dict, in the key order the source constructs. -/
def encodeItem (it : Item) : Json :=
  .obj [("name", .str it.name), ("price", .num it.price), ("quantity", .num it.quantity)]

/-- JSON rendering of an order dict, in the key order the source constructs. -/
def encodeOrder (o : Order) : Json :=
  .obj [("order_id", .str o.order_id), ("customer", .str o.customer),
        ("items", .arr (o.items.map encodeItem))]

/-- JSON rendering of an order collection. -/
def encodeOrders (os : List Order) : Json := .arr (os.map encodeOrder)

/-- Read an item record back from a JSON value. -/
def decodeItem : Json → Option Item
  | .obj [("name", .str n), ("price", .num p), ("quantity", .num q)] => some ⟨n, p, q⟩
  | _ => none

/-- Read a list of item records back from JSON values. -/
def decodeItems : List Json → Option (List Item)
  | [] => some []
  | j :: js =>
    match decodeItem j, decodeItems js with
    | some i, some is => some (i :: is)
    | _, _ => none

/-- Read an order record back from a JSON value. -/
def decodeOrder : Json → Option Order
  | .obj [("order_id", .str oid), ("customer", .str c), ("items", .arr js)] =>
    (decodeItems js).map (fun is => ⟨oid, c, is⟩)
  | _ => none

/-- Read a list of order records back from JSON values. -/
def decodeOrdersAux : List Json → Option (List Order)
  | [] => some []
  | j :: js =>
    match decodeOrder j, decodeOrdersAux js with
    | some o, some os => some (o :: os)
    | _, _ => none

/-- Read an order collection back from a JSON value. -/
def decodeOrders : Json → Option (List Order)
  | .arr js => decodeOrdersAux js
  | _ => none

/-- Contents of one persisted file: absent, present but not valid JSON, or
holding the JSON rendering of an order collection (the only shape this
program ever writes). -/
inductive FileContent where
  | missing : FileContent
  | corrupt : FileContent
  | valid : List Order → FileContent
deriving DecidableEq

/-- `load_data(filename)`: parse the file; `FileNotFoundError` and
`json.JSONDecodeError` are caught and yield `[]`.  Total: no exception
surfaces. -/
def load_data : FileContent → List Order
  | .missing => []
  | .corrupt => []
  | .valid os => os

/-- `save_orders(filename, orders)`: overwrite the file with the JSON
rendering of `orders`. -/
def save_orders (orders : List Order) : FileContent :=
  .valid orders

/-- `calculate_order_total(order)`: sum over items of price × quantity. -/
def calculate_order_total (order : Order) : Int :=
  (order.items.map (fun item => item.price * item.quantity)).sum

/-- The two persisted files: `INPUT_FILE` (pending) and `OUTPUT_FILE`
(completed). -/
structure FS where
  inputFile : FileContent
  outputFile : FileContent
deriving DecidableEq

/-- `process_order(orders)`, lines 26-50.  `choiceLine` is the line read at
the selection prompt.  Returns the printed message, the popped order (the
Python second tuple component, `None` on failure), the in-memory `orders`
list after the call, and the file state after the call. -/
def process_order (orders : List Order) (choiceLine : String) (fs : FS) :
    String × Option Order × List Order × FS :=
  if orders = [] then
    ("目前沒有待處理訂單。", none, orders, fs)
  else
    let choice := strip choiceLine
    if choice = "" then
      ("出餐流程已取消。", none, orders, fs)
    else
      match pyInt choice with
      | none => ("錯誤：請輸入有效的訂單編號", none, orders, fs)
      | some n =>
        let index : Int := n - 1
        if h : 0 ≤ index ∧ index < (orders.length : Int) then
          let completed_order := orders.get ⟨index.toNat, by omega⟩
          let remaining := orders.eraseIdx index.toNat
          let existing_output := load_data fs.outputFile
          ("訂單 " ++ completed_order.order_id ++ " 已出餐完成",
           some completed_order, remaining,
           ⟨save_orders remaining, save_orders (existing_output ++ [completed_order])⟩)
        else
          ("錯誤：請輸入有效的訂單編號", none, orders, fs)

/-- The item-entry loop of `add_order`, lines 65-85.  `items` is the
accumulator; `inputs` are the remaining console lines.  Returns the final
item list and the unconsumed lines, or `none` if the loop would block
forever waiting for input. -/
def itemLoop (items : List Item) (inputs : List String) :
    Option (List Item × List String) :=
  match inputs with
  | [] => none
  | nameLine :: rest =>
    if strip nameLine = "" then
      if items = [] then itemLoop items rest
      else some (items, rest)
    else
      match rest with
      | [] => none
      | priceLine :: rest2 =>
        match pyInt priceLine with
        | none => itemLoop items rest2
        | some price =>
          if price < 0 then itemLoop items rest2
          else
            match rest2 with
            | [] => none
            | qtyLine :: rest3 =>
              match pyInt qtyLine with
              | none => itemLoop items rest3
              | some quantity =>
                if quantity ≤ 0 then itemLoop items rest3
                else itemLoop (items ++ [⟨strip nameLine, price, quantity⟩]) rest3

/-- `add_order(orders)`, lines 52-94.  `inputs` are the console lines.
Returns the message, the `orders` list after the call, and whether
`save_orders(INPUT_FILE, ...)` ran; `none` if the flow would block forever
waiting for input. -/
def add_order (orders : List Order) (inputs : List String) :
    Option (String × List Order × Bool) :=
  match inputs with
  | [] => none
  | idLine :: rest =>
    let order_id := upper (strip idLine)
    if order_id = "" then
      some ("錯誤：訂單編號不可為空", orders, false)
    else if orders.any (fun o => o.order_id == order_id) then
      some ("錯誤：訂單編號 " ++ order_id ++ " 已存在", orders, false)
    else
      match rest with
      | [] => none
      | custLine :: rest2 =>
        let customer := strip custLine
        if customer = "" then
          some ("錯誤：顧客姓名不可為空", orders, false)
        else
          match itemLoop [] rest2 with
          | none => none
          | some (items, _) =>
            let new_order : Order := ⟨order_id, customer, items⟩
            some ("訂單 " ++ order_id ++ " 新增成功", orders ++ [new_order], true)

/-- States of the main-menu loop, lines 112-145. -/
inductive MenuState where
  | running : MenuState
  | exited : MenuState
deriving DecidableEq

/-- What one menu iteration does besides transitioning. -/
inductive MenuAction where
  | shutdown : MenuAction
  | doAdd : MenuAction
  | doReport : MenuAction
  | doFulfill : MenuAction
  | invalid : MenuAction
deriving DecidableEq

/-- One iteration of the `while True` loop of `main_menu` from the running
state: the dispatched action and the next state. -/
def menu_step (inputLine : String) : MenuAction × MenuState :=
  let choice := strip inputLine
  if choice = "" ∨ choice = "4" then (.shutdown, .exited)
  else if choice = "1" then (.doAdd, .running)
  else if choice = "2" then (.doReport, .running)
  else if choice = "3" then (.doFulfill, .running)
  else (.invalid, .running)

/-- Run the menu loop on a script of input lines, reporting the state when
the script is exhausted (`running` means the loop is still going and would
block on the next `input()`). -/
def menu_run : List String → MenuState
  | [] => .running
  | line :: rest =>
    match menu_step line with
    | (_, .exited) => .exited
    | (_, .running) => menu_run rest

/-- Items accepted by the item-entry loop: name entered non-empty, price
validated non-negative, quantity validated positive. -/
abbrev goodItem (i : Item) : Prop := i.name ≠ "" ∧ 0 ≤ i.price ∧ 1 ≤ i.quantity

set_option maxHeartbeats 1000000 in
/-- An empty (stripped) name line either re-prompts (no items yet) or ends
item entry, returning the accumulated items unchanged. -/
theorem itemLoop_empty_name (items : List Item) (nameLine : String) (rest : List String)
    (hname : strip nameLine = "") :
    itemLoop items (nameLine :: rest) =
      if items = [] then itemLoop items rest else some (items, rest) := by
  cases rest with
  | nil => rw [itemLoop.eq_2, if_pos hname]
  | cons b r => rw [itemLoop.eq_3, if_pos hname]

/-- Any item list returned by the item-entry loop is non-empty, and all the
items it appended to a well-formed accumulator are well-formed. -/
theorem itemLoop_post (items0 : List Item) (inputs : List String)
    (items : List Item) (rest : List String)
    (h : itemLoop items0 inputs = some (items, rest)) :
    items ≠ [] ∧
      ((∀ i ∈ items0, goodItem i) → ∀ i ∈ items, goodItem i) := by
  induction items0, inputs using itemLoop.induct with
  | case1 its => simp [itemLoop] at h
  | case2 nameLine rest3 hname ih =>
    rw [itemLoop_empty_name [] nameLine rest3 hname, if_pos rfl] at h
    exact ih h
  | case3 its nameLine rest3 hname hits =>
    rw [itemLoop_empty_name its nameLine rest3 hname, if_neg hits] at h
    simp only [Option.some.injEq, Prod.mk.injEq] at h
    obtain ⟨rfl, rfl⟩ := h
    exact ⟨hits, fun h0 => h0⟩
  | case4 its nameLine hname => simp [itemLoop, hname] at h
  | case5 its nameLine hname priceLine rest3 hp ih =>
    simp [itemLoop, hname, hp] at h
    exact ih h
  | case6 its nameLine hname priceLine rest3 p hp hneg ih =>
    simp [itemLoop, hname, hp, hneg] at h
    exact ih h
  | case7 its nameLine hname priceLine p hp hpos =>
    simp [itemLoop, hname, hp, hpos] at h
  | case8 its nameLine hname priceLine p hp hpos qtyLine rest3 hq ih =>
    simp [itemLoop, hname, hp, hpos, hq] at h
    exact ih h
  | case9 its nameLine hname priceLine p hp hpos qtyLine rest3 q hq hq0 ih =>
    simp [itemLoop, hname, hp, hpos, hq, hq0] at h
    exact ih h
  | case10 its nameLine hname priceLine p hp hpos qtyLine rest3 q hq hq1 ih =>
    simp [itemLoop, hname, hp, hpos, hq, hq1] at h
    obtain ⟨hne, himp⟩ := ih h
    refine ⟨hne, fun h0 => himp ?_⟩
    intro i hi
    rcases List.mem_append.mp hi with h' | h'
    · exact h0 i h'
    · simp only [List.mem_singleton] at h'
      subst h'
      exact ⟨hname, by show (0:Int) ≤ p; omega, by show (1:Int) ≤ q; omega⟩

/-- `add_order` on an empty (stripped) order id: error, nothing changed or
saved. -/
theorem add_order_empty_id (orders : List Order) (idLine : String) (rest : List String)
    (h1 : upper (strip idLine) = "") :
    add_order orders (idLine :: rest) = some ("錯誤：訂單編號不可為空", orders, false) := by
  simp [add_order, h1]

/-- `add_order` on a duplicate id (the upper-cased entered id equals a stored
`order_id` verbatim): error, nothing changed or saved. -/
theorem add_order_dup (orders : List Order) (idLine : String) (rest : List String)
    (h1 : upper (strip idLine) ≠ "")
    (h2 : orders.any (fun o => o.order_id == upper (strip idLine)) = true) :
    add_order orders (idLine :: rest) =
      some ("錯誤：訂單編號 " ++ upper (strip idLine) ++ " 已存在", orders, false) := by
  simp [add_order, h1, h2]

/-- `add_order` on an empty (stripped) customer name: error, nothing changed
or saved. -/
theorem add_order_empty_customer (orders : List Order) (idLine custLine : String)
    (rest2 : List String) (h1 : upper (strip idLine) ≠ "")
    (h2 : orders.any (fun o => o.order_id == upper (strip idLine)) = false)
    (h3 : strip custLine = "") :
    add_order orders (idLine :: custLine :: rest2) =
      some ("錯誤：顧客姓名不可為空", orders, false) := by
  simp [add_order, h1, h2, h3]

/-- `add_order` past all checks: appends the new order and saves. -/
theorem add_order_success_eq (orders : List Order) (idLine custLine : String)
    (rest2 restOut : List String) (items : List Item)
    (h1 : upper (strip idLine) ≠ "")
    (h2 : orders.any (fun o => o.order_id == upper (strip idLine)) = false)
    (h3 : strip custLine ≠ "")
    (hIL : itemLoop [] rest2 = some (items, restOut)) :
    add_order orders (idLine :: custLine :: rest2) =
      some ("訂單 " ++ upper (strip idLine) ++ " 新增成功",
            orders ++ [⟨upper (strip idLine), strip custLine, items⟩], true) := by
  simp [add_order, h1, h2, h3, hIL]

/-- Every returning `add_order` call either failed (collection untouched,
nothing saved) or appended exactly one validated order and saved. -/
theorem add_order_cases (orders : List Order) (inputs : List String)
    (msg : String) (orders' : List Order) (saved : Bool)
    (h : add_order orders inputs = some (msg, orders', saved)) :
    (saved = false ∧ orders' = orders) ∨
    (saved = true ∧ ∃ idLine custLine rest items restOut,
      inputs = idLine :: custLine :: rest ∧
      upper (strip idLine) ≠ "" ∧
      (∀ o ∈ orders, o.order_id ≠ upper (strip idLine)) ∧
      strip custLine ≠ "" ∧
      itemLoop [] rest = some (items, restOut) ∧
      orders' = orders ++ [⟨upper (strip idLine), strip custLine, items⟩] ∧
      msg = "訂單 " ++ upper (strip idLine) ++ " 新增成功") := by
  cases inputs with
  | nil => simp [add_order] at h
  | cons idLine rest =>
    by_cases h1 : upper (strip idLine) = ""
    · rw [add_order_empty_id orders idLine rest h1] at h
      simp only [Option.some.injEq, Prod.mk.injEq] at h
      exact Or.inl ⟨h.2.2.symm, h.2.1.symm⟩
    · by_cases h2 : orders.any (fun o => o.order_id == upper (strip idLine)) = true
      · rw [add_order_dup orders idLine rest h1 h2] at h
        simp only [Option.some.injEq, Prod.mk.injEq] at h
        exact Or.inl ⟨h.2.2.symm, h.2.1.symm⟩
      · rw [Bool.not_eq_true] at h2
        cases rest with
        | nil =>
          have hnone : add_order orders [idLine] = none := by
            simp [add_order, h1, h2]
          rw [hnone] at h
          exact Option.noConfusion h
        | cons custLine rest2 =>
          by_cases h3 : strip custLine = ""
          · rw [add_order_empty_customer orders idLine custLine rest2 h1 h2 h3] at h
            simp only [Option.some.injEq, Prod.mk.injEq] at h
            exact Or.inl ⟨h.2.2.symm, h.2.1.symm⟩
          · cases hIL : itemLoop [] rest2 with
            | none =>
              have hnone : add_order orders (idLine :: custLine :: rest2) = none := by
                simp [add_order, h1, h2, h3, hIL]
              rw [hnone] at h
              exact Option.noConfusion h
            | some p =>
              obtain ⟨items, restOut⟩ := p
              rw [add_order_success_eq orders idLine custLine rest2 restOut items h1 h2 h3 hIL] at h
              simp only [Option.some.injEq, Prod.mk.injEq] at h
              obtain ⟨hmsg, hord, hsaved⟩ := h
              refine Or.inr ⟨hsaved.symm, idLine, custLine, rest2, items, restOut,
                rfl, h1, ?_, h3, hIL, hord.symm, hmsg.symm⟩
              intro o ho heq
              rw [List.any_eq_false] at h2
              exact absurd (beq_iff_eq.mpr heq) (h2 o ho)

/-- `process_order` on a valid 1-based selection `k`: pops the `k`-th order,
appends it to the loaded completed collection, saves both files. -/
theorem process_order_success (orders : List Order) (choiceLine : String) (fs : FS)
    (k : Nat) (o : Order)
    (hk1 : 1 ≤ k) (hk2 : k ≤ orders.length)
    (hparse : pyInt (strip choiceLine) = some (k : Int))
    (ho : orders.get? (k - 1) = some o) :
    process_order orders choiceLine fs =
      ("訂單 " ++ o.order_id ++ " 已出餐完成", some o, orders.eraseIdx (k - 1),
       ⟨FileContent.valid (orders.eraseIdx (k - 1)),
        FileContent.valid (load_data fs.outputFile ++ [o])⟩) := by
  have hne : orders ≠ [] := by
    intro he
    rw [he] at hk2
    simp at hk2
    omega
  have hcs : strip choiceLine ≠ "" := by
    intro he
    rw [he] at hparse
    exact Option.noConfusion hparse
  have hlt : k - 1 < orders.length := by omega
  have hgo : orders.get ⟨k - 1, hlt⟩ = o := by
    rw [List.get?_eq_get hlt] at ho
    exact Option.some.inj ho
  have hcond : (0:Int) ≤ (k:Int) - 1 ∧ (k:Int) - 1 < (orders.length : Int) := by
    constructor <;> omega
  have htn : ((k:Int) - 1).toNat = k - 1 := by omega
  simp only [process_order, if_neg hne, if_neg hcs, hparse]
  rw [dif_pos hcond]
  simp only [htn, hgo, save_orders]

/-- `process_order` on an empty pending collection: distinct message, no
order returned, nothing touched. -/
theorem process_order_no_pending (choiceLine : String) (fs : FS) :
    process_order [] choiceLine fs = ("目前沒有待處理訂單。", none, [], fs) := by
  simp [process_order]

/-- `process_order` on empty (stripped) input: cancel, nothing touched. -/
theorem process_order_cancel (orders : List Order) (choiceLine : String) (fs : FS)
    (hne : orders ≠ []) (hc : strip choiceLine = "") :
    process_order orders choiceLine fs = ("出餐流程已取消。", none, orders, fs) := by
  simp [process_order, hne, hc]

/-- `process_order` on non-integer input: error, nothing touched. -/
theorem process_order_parse_fail (orders : List Order) (choiceLine : String) (fs : FS)
    (hne : orders ≠ []) (hc : strip choiceLine ≠ "")
    (hp : pyInt (strip choiceLine) = none) :
    process_order orders choiceLine fs =
      ("錯誤：請輸入有效的訂單編號", none, orders, fs) := by
  simp [process_order, hne, hc, hp]

/-- `process_order` on an out-of-range selection: the same error as the
non-integer case, nothing touched. -/
theorem process_order_out_of_range (orders : List Order) (choiceLine : String) (fs : FS)
    (n : Int) (hne : orders ≠ [])
    (hp : pyInt (strip choiceLine) = some n)
    (hn : ¬(1 ≤ n ∧ n ≤ (orders.length : Int))) :
    process_order orders choiceLine fs =
      ("錯誤：請輸入有效的訂單編號", none, orders, fs) := by
  have hc : strip choiceLine ≠ "" := by
    intro he
    rw [he] at hp
    exact Option.noConfusion hp
  simp only [process_order, if_neg hne, if_neg hc, hp]
  rw [dif_neg (by omega)]

/-- Decoding inverts encoding for a single item. -/
theorem decodeItem_encodeItem (i : Item) : decodeItem (encodeItem i) = some i := by
  cases i
  rfl

/-- Decoding inverts encoding for an item list. -/
theorem decodeItems_encode (is : List Item) :
    decodeItems (is.map encodeItem) = some is := by
  induction is with
  | nil => rfl
  | cons i is ih => simp [decodeItems, decodeItem_encodeItem, ih]

/-- Decoding inverts encoding for a single order. -/
theorem decodeOrder_encodeOrder (o : Order) : decodeOrder (encodeOrder o) = some o := by
  cases o
  simp [encodeOrder, decodeOrder, decodeItems_encode]

/-- Decoding inverts encoding for an order list. -/
theorem decodeOrdersAux_encode (os : List Order) :
    decodeOrdersAux (os.map encodeOrder) = some os := by
  induction os with
  | nil => rfl
  | cons o os ih => simp [decodeOrdersAux, decodeOrder_encodeOrder, ih]

/-- C5: loading a missing or unparseable file yields the empty collection;
`load_data` is a total function, so no exception surfaces. -/
theorem C5_load_recovers (f : FileContent) (h : f = .missing ∨ f = .corrupt) :
    load_data f = [] := by
  rcases h with rfl | rfl <;> rfl

/-- C5 witness: both failure shapes at a concrete file. -/
theorem C5_load_recovers_witness :
    load_data .missing = [] ∧ load_data .corrupt = [] :=
  ⟨C5_load_recovers .missing (Or.inl rfl), C5_load_recovers .corrupt (Or.inr rfl)⟩

/-- C6: saving a collection and loading it back yields the same collection
field-for-field, both at the typed file level and through the JSON encoding
actually written to disk. -/
theorem C6_round_trip (c : List Order) (h : ∀ o ∈ c, o.items ≠ []) :
    load_data (save_orders c) = c ∧ decodeOrders (encodeOrders c) = some c :=
  ⟨rfl, by simp [decodeOrders, encodeOrders, decodeOrdersAux_encode]⟩

/-- C6 witness: round trip at a concrete one-order collection. -/
theorem C6_round_trip_witness :
    load_data (save_orders [⟨"A1", "Alice", [⟨"Tea", 30, 2⟩]⟩]) =
        [⟨"A1", "Alice", [⟨"Tea", 30, 2⟩]⟩] ∧
      decodeOrders (encodeOrders [⟨"A1", "Alice", [⟨"Tea", 30, 2⟩]⟩]) =
        some [⟨"A1", "Alice", [⟨"Tea", 30, 2⟩]⟩] :=
  C6_round_trip [⟨"A1", "Alice", [⟨"Tea", 30, 2⟩]⟩] (by decide)

/-- C7: the order total is the sum over items of price × quantity, and is
invariant under permutation of the item list; the function is pure. -/
theorem C7_compute_total (o o' : Order) (hperm : o.items.Perm o'.items) :
    calculate_order_total o = (o.items.map (fun i => i.price * i.quantity)).sum ∧
      calculate_order_total o = calculate_order_total o' :=
  ⟨rfl, List.Perm.sum_eq (hperm.map _)⟩

/-- C7 witness: two concrete orders with permuted items have equal totals. -/
theorem C7_compute_total_witness :
    calculate_order_total ⟨"A1", "Alice", [⟨"Tea", 30, 2⟩, ⟨"Rice", 50, 1⟩]⟩ =
        ([(⟨"Tea", 30, 2⟩ : Item), ⟨"Rice", 50, 1⟩].map
          (fun i => i.price * i.quantity)).sum ∧
      calculate_order_total ⟨"A1", "Alice", [⟨"Tea", 30, 2⟩, ⟨"Rice", 50, 1⟩]⟩ =
        calculate_order_total ⟨"A1", "Alice", [⟨"Rice", 50, 1⟩, ⟨"Tea", 30, 2⟩]⟩ :=
  C7_compute_total _ _ (by decide)

/-- C8: one menu iteration exits exactly on empty (stripped) input or "4",
with the shutdown action; "1", "2", "3" dispatch and stay running; anything
else is reported invalid and stays running; an exiting input terminates the
run regardless of later input, and a non-exiting input never ends the loop. -/
theorem C8_menu_machine (line : String) :
    ((menu_step line).2 = .exited ↔ (strip line = "" ∨ strip line = "4"))
    ∧ ((strip line = "" ∨ strip line = "4") → menu_step line = (.shutdown, .exited))
    ∧ (strip line = "1" → menu_step line = (.doAdd, .running))
    ∧ (strip line = "2" → menu_step line = (.doReport, .running))
    ∧ (strip line = "3" → menu_step line = (.doFulfill, .running))
    ∧ (strip line ≠ "" → strip line ≠ "1" → strip line ≠ "2" → strip line ≠ "3" →
        strip line ≠ "4" → menu_step line = (.invalid, .running))
    ∧ (∀ rest, (strip line = "" ∨ strip line = "4") → menu_run (line :: rest) = .exited)
    ∧ (∀ rest, (menu_step line).2 = .running → menu_run (line :: rest) = menu_run rest) := by
  refine ⟨?_, ?_, ?_, ?_, ?_, ?_, ?_, ?_⟩
  · by_cases h0 : strip line = "" ∨ strip line = "4"
    · simp [menu_step, h0]
    · simp only [menu_step, if_neg h0]
      split_ifs <;> simp [h0]
  · intro h0
    simp [menu_step, h0]
  · intro h1
    simp [menu_step, h1]
  · intro h2
    simp [menu_step, h2]
  · intro h3
    simp [menu_step, h3]
  · intro h0 h1 h2 h3 h4
    simp [menu_step, h0, h1, h2, h3, h4]
  · intro rest h0
    simp [menu_run, menu_step, h0]
  · intro rest h0
    cases hs : menu_step line with
    | mk a s =>
      rw [hs] at h0
      cases s with
      | running =>
        have hrun : menu_run (line :: rest) =
            match menu_step line with
            | (_, MenuState.exited) => MenuState.exited
            | (_, MenuState.running) => menu_run rest := rfl
        rw [hrun, hs]
      | exited => exact absurd h0 (by simp)

/-- C8 witness: concrete transitions of the menu machine. -/
theorem C8_menu_machine_witness :
    menu_step " 4 " = (.shutdown, .exited)
    ∧ menu_step "1" = (.doAdd, .running)
    ∧ menu_step "9" = (.invalid, .running)
    ∧ menu_run [" 4 ", "1"] = .exited
    ∧ menu_run ["9", ""] = menu_run [""] :=
  ⟨(C8_menu_machine " 4 ").2.1 (Or.inr (by decide)),
   (C8_menu_machine "1").2.2.1 (by decide),
   (C8_menu_machine "9").2.2.2.2.2.1 (by decide) (by decide) (by decide) (by decide) (by decide),
   (C8_menu_machine " 4 ").2.2.2.2.2.2.1 ["1"] (Or.inr (by decide)),
   (C8_menu_machine "9").2.2.2.2.2.2.2 [""] (by decide)⟩

/-- C1: a successful fulfilment with selection `k` pops the `k`-th pending
order, appends it unmodified to the loaded completed collection, persists
both files, returns the removed order with a success message containing its
id, and shifts the lengths by exactly one. -/
theorem C1_fulfill_success (orders : List Order) (choiceLine : String) (fs : FS)
    (k : Nat) (o : Order)
    (hk1 : 1 ≤ k) (hk2 : k ≤ orders.length)
    (hparse : pyInt (strip choiceLine) = some (k : Int))
    (ho : orders.get? (k - 1) = some o) :
    process_order orders choiceLine fs =
      ("訂單 " ++ o.order_id ++ " 已出餐完成", some o, orders.eraseIdx (k - 1),
       ⟨save_orders (orders.eraseIdx (k - 1)),
        save_orders (load_data fs.outputFile ++ [o])⟩)
    ∧ (orders.eraseIdx (k - 1)).length + 1 = orders.length
    ∧ (load_data fs.outputFile ++ [o]).length = (load_data fs.outputFile).length + 1
    ∧ ∃ pre post, "訂單 " ++ o.order_id ++ " 已出餐完成" = pre ++ o.order_id ++ post :=
  ⟨process_order_success orders choiceLine fs k o hk1 hk2 hparse ho,
   List.length_eraseIdx_add_one (by omega), by simp, ⟨"訂單 ", " 已出餐完成", rfl⟩⟩

/-- C1 witness: fulfilling selection 2 of a two-order pending collection. -/
theorem C1_fulfill_success_witness :
    process_order [⟨"A1", "Alice", [⟨"Tea", 30, 2⟩]⟩, ⟨"B2", "Bob", [⟨"Rice", 50, 1⟩]⟩] "2"
        ⟨FileContent.valid [⟨"A1", "Alice", [⟨"Tea", 30, 2⟩]⟩, ⟨"B2", "Bob", [⟨"Rice", 50, 1⟩]⟩],
         FileContent.valid [⟨"C3", "Carol", [⟨"Egg", 10, 1⟩]⟩]⟩ =
      ("訂單 B2 已出餐完成", some ⟨"B2", "Bob", [⟨"Rice", 50, 1⟩]⟩,
       [⟨"A1", "Alice", [⟨"Tea", 30, 2⟩]⟩],
       ⟨FileContent.valid [⟨"A1", "Alice", [⟨"Tea", 30, 2⟩]⟩],
        FileContent.valid [⟨"C3", "Carol", [⟨"Egg", 10, 1⟩]⟩, ⟨"B2", "Bob", [⟨"Rice", 50, 1⟩]⟩]⟩)
    ∧ ([(⟨"A1", "Alice", [⟨"Tea", 30, 2⟩]⟩ : Order),
        ⟨"B2", "Bob", [⟨"Rice", 50, 1⟩]⟩].eraseIdx (2 - 1)).length + 1 = 2
    ∧ (load_data (FileContent.valid [⟨"C3", "Carol", [⟨"Egg", 10, 1⟩]⟩]) ++
        [(⟨"B2", "Bob", [⟨"Rice", 50, 1⟩]⟩ : Order)]).length =
       (load_data (FileContent.valid [⟨"C3", "Carol", [⟨"Egg", 10, 1⟩]⟩])).length + 1
    ∧ ∃ pre post, "訂單 B2 已出餐完成" = pre ++ "B2" ++ post :=
  C1_fulfill_success
    [⟨"A1", "Alice", [⟨"Tea", 30, 2⟩]⟩, ⟨"B2", "Bob", [⟨"Rice", 50, 1⟩]⟩] "2"
    ⟨FileContent.valid [⟨"A1", "Alice", [⟨"Tea", 30, 2⟩]⟩, ⟨"B2", "Bob", [⟨"Rice", 50, 1⟩]⟩],
     FileContent.valid [⟨"C3", "Carol", [⟨"Egg", 10, 1⟩]⟩]⟩ 2
    ⟨"B2", "Bob", [⟨"Rice", 50, 1⟩]⟩
    (by decide) (by decide) (by decide) (by decide)

/-- C9: after a successful fulfilment of selection `k` the remaining pending
orders are exactly the original ones other than the `k`-th, unmodified and
in order, and the persisted completed file is the previously persisted
completed collection with the fulfilled order appended at the end. -/
theorem C9_fulfill_frame (orders : List Order) (choiceLine : String)
    (inF : FileContent) (completedPrev : List Order) (k : Nat) (o : Order)
    (hk1 : 1 ≤ k) (hk2 : k ≤ orders.length)
    (hparse : pyInt (strip choiceLine) = some (k : Int))
    (ho : orders.get? (k - 1) = some o) :
    (process_order orders choiceLine ⟨inF, .valid completedPrev⟩).2.2.1 =
        orders.take (k - 1) ++ orders.drop k
    ∧ (process_order orders choiceLine ⟨inF, .valid completedPrev⟩).2.2.2 =
        ⟨FileContent.valid (orders.take (k - 1) ++ orders.drop k),
         FileContent.valid (completedPrev ++ [o])⟩ := by
  have h := process_order_success orders choiceLine ⟨inF, .valid completedPrev⟩ k o hk1 hk2 hparse ho
  have he : orders.eraseIdx (k - 1) = orders.take (k - 1) ++ orders.drop k := by
    rw [List.eraseIdx_eq_take_drop_succ]
    have hk : k - 1 + 1 = k := by omega
    rw [hk]
  rw [h]
  rw [he]
  exact ⟨rfl, rfl⟩

/-- C9 witness: fulfilling selection 1 of a two-order pending collection
keeps the second order and appends to the completed file. -/
theorem C9_fulfill_frame_witness :
    (process_order [⟨"A1", "Alice", [⟨"Tea", 30, 2⟩]⟩, ⟨"B2", "Bob", [⟨"Rice", 50, 1⟩]⟩] "1"
        ⟨FileContent.missing, FileContent.valid [⟨"C3", "Carol", [⟨"Egg", 10, 1⟩]⟩]⟩).2.2.1 =
      [(⟨"A1", "Alice", [⟨"Tea", 30, 2⟩]⟩ : Order),
        ⟨"B2", "Bob", [⟨"Rice", 50, 1⟩]⟩].take (1 - 1) ++
      [(⟨"A1", "Alice", [⟨"Tea", 30, 2⟩]⟩ : Order), ⟨"B2", "Bob", [⟨"Rice", 50, 1⟩]⟩].drop 1
    ∧ (process_order [⟨"A1", "Alice", [⟨"Tea", 30, 2⟩]⟩, ⟨"B2", "Bob", [⟨"Rice", 50, 1⟩]⟩] "1"
        ⟨FileContent.missing, FileContent.valid [⟨"C3", "Carol", [⟨"Egg", 10, 1⟩]⟩]⟩).2.2.2 =
      ⟨FileContent.valid
          ([(⟨"A1", "Alice", [⟨"Tea", 30, 2⟩]⟩ : Order),
            ⟨"B2", "Bob", [⟨"Rice", 50, 1⟩]⟩].take (1 - 1) ++
           [(⟨"A1", "Alice", [⟨"Tea", 30, 2⟩]⟩ : Order), ⟨"B2", "Bob", [⟨"Rice", 50, 1⟩]⟩].drop 1),
       FileContent.valid
          [⟨"C3", "Carol", [⟨"Egg", 10, 1⟩]⟩, ⟨"A1", "Alice", [⟨"Tea", 30, 2⟩]⟩]⟩ :=
  C9_fulfill_frame [⟨"A1", "Alice", [⟨"Tea", 30, 2⟩]⟩, ⟨"B2", "Bob", [⟨"Rice", 50, 1⟩]⟩] "1"
    FileContent.missing [⟨"C3", "Carol", [⟨"Egg", 10, 1⟩]⟩] 1
    ⟨"A1", "Alice", [⟨"Tea", 30, 2⟩]⟩
    (by decide) (by decide) (by decide) (by decide)

/-- C3 counterexample: an out-of-range selection (claimed `NotFoundError`)
and a non-integer selection (claimed `ValidationError`) produce the very
same result, so the two failure kinds are not distinct in the code. -/
theorem C3_counterexample :
    process_order [⟨"A1", "Bob", [⟨"Tea", 30, 2⟩]⟩] "5" ⟨.missing, .missing⟩ =
      ("錯誤：請輸入有效的訂單編號", none, [⟨"A1", "Bob", [⟨"Tea", 30, 2⟩]⟩],
       ⟨.missing, .missing⟩)
    ∧ process_order [⟨"A1", "Bob", [⟨"Tea", 30, 2⟩]⟩] "abc" ⟨.missing, .missing⟩ =
      ("錯誤：請輸入有效的訂單編號", none, [⟨"A1", "Bob", [⟨"Tea", 30, 2⟩]⟩],
       ⟨.missing, .missing⟩) :=
  ⟨by decide, by decide⟩

/-- C3 (amended): empty pending collection gives its own message; empty
input cancels; a non-integer selection and an out-of-range selection give
the same invalid-selection error; in every case nothing is mutated. -/
theorem C3_amended_failures :
    (∀ (choice : String) (fs : FS),
      process_order [] choice fs = ("目前沒有待處理訂單。", none, [], fs))
    ∧ (∀ (orders : List Order) (choice : String) (fs : FS), orders ≠ [] →
        strip choice = "" →
        process_order orders choice fs = ("出餐流程已取消。", none, orders, fs))
    ∧ (∀ (orders : List Order) (choice : String) (fs : FS), orders ≠ [] →
        strip choice ≠ "" → pyInt (strip choice) = none →
        process_order orders choice fs =
          ("錯誤：請輸入有效的訂單編號", none, orders, fs))
    ∧ (∀ (orders : List Order) (choice : String) (fs : FS) (n : Int), orders ≠ [] →
        pyInt (strip choice) = some n → ¬(1 ≤ n ∧ n ≤ (orders.length : Int)) →
        process_order orders choice fs =
          ("錯誤：請輸入有效的訂單編號", none, orders, fs)) :=
  ⟨process_order_no_pending,
   fun orders choice fs hne hc => process_order_cancel orders choice fs hne hc,
   fun orders choice fs hne hc hp => process_order_parse_fail orders choice fs hne hc hp,
   fun orders choice fs n hne hp hn => process_order_out_of_range orders choice fs n hne hp hn⟩

/-- C3 amended witness: each failure branch at a concrete input. -/
theorem C3_amended_failures_witness :
    process_order [] "1" ⟨.missing, .missing⟩ =
      ("目前沒有待處理訂單。", none, [], ⟨.missing, .missing⟩)
    ∧ process_order [⟨"A1", "Bob", [⟨"Tea", 30, 2⟩]⟩] "  " ⟨.missing, .corrupt⟩ =
      ("出餐流程已取消。", none, [⟨"A1", "Bob", [⟨"Tea", 30, 2⟩]⟩], ⟨.missing, .corrupt⟩)
    ∧ process_order [⟨"A1", "Bob", [⟨"Tea", 30, 2⟩]⟩] "2x" ⟨.corrupt, .missing⟩ =
      ("錯誤：請輸入有效的訂單編號", none, [⟨"A1", "Bob", [⟨"Tea", 30, 2⟩]⟩],
       ⟨.corrupt, .missing⟩)
    ∧ process_order [⟨"A1", "Bob", [⟨"Tea", 30, 2⟩]⟩] "0" ⟨.missing, .missing⟩ =
      ("錯誤：請輸入有效的訂單編號", none, [⟨"A1", "Bob", [⟨"Tea", 30, 2⟩]⟩],
       ⟨.missing, .missing⟩) :=
  ⟨C3_amended_failures.1 "1" ⟨.missing, .missing⟩,
   C3_amended_failures.2.1 _ "  " ⟨.missing, .corrupt⟩ (by decide) (by decide),
   C3_amended_failures.2.2.1 _ "2x" ⟨.corrupt, .missing⟩ (by decide) (by decide) (by decide),
   C3_amended_failures.2.2.2 _ "0" ⟨.missing, .missing⟩ 0 (by decide) (by decide) (by decide)⟩

/-- C2 counterexample: with a stored lower-case id "a1", entering "a1"
(case-insensitively identical, both upper-case to "A1") does not fail: the
order is added, because the code upper-cases only the entered id and
compares verbatim.  Also, an empty item list never yields a failure return:
ending item entry with no items re-prompts, so the call blocks instead. -/
theorem C2_counterexample :
    upper ((⟨"a1", "Bob", [⟨"Tea", 30, 2⟩]⟩ : Order).order_id) = upper (strip "a1")
    ∧ add_order [⟨"a1", "Bob", [⟨"Tea", 30, 2⟩]⟩] ["a1", "Carol", "Tea", "30", "2", ""] =
        some ("訂單 A1 新增成功",
              [⟨"a1", "Bob", [⟨"Tea", 30, 2⟩]⟩, ⟨"A1", "Carol", [⟨"Tea", 30, 2⟩]⟩], true)
    ∧ add_order [] ["A1", "Bob", ""] = none :=
  ⟨by decide, by decide, by decide⟩

/-- C2 (amended): `add_order` fails with an error and leaves the collection
unchanged and unsaved when the entered id is empty, when the upper-cased
entered id equals a stored `order_id` verbatim, or when the customer is
empty; an empty item list never aborts the call: any returning call that
changed the collection appended one order with a non-empty item list. -/
theorem C2_amended_validation :
    (∀ (orders : List Order) (idLine : String) (rest : List String),
      strip idLine = "" →
      add_order orders (idLine :: rest) = some ("錯誤：訂單編號不可為空", orders, false))
    ∧ (∀ (orders : List Order) (idLine : String) (rest : List String),
        upper (strip idLine) ≠ "" →
        (∃ o ∈ orders, o.order_id = upper (strip idLine)) →
        add_order orders (idLine :: rest) =
          some ("錯誤：訂單編號 " ++ upper (strip idLine) ++ " 已存在", orders, false))
    ∧ (∀ (orders : List Order) (idLine custLine : String) (rest2 : List String),
        upper (strip idLine) ≠ "" →
        (∀ o ∈ orders, o.order_id ≠ upper (strip idLine)) →
        strip custLine = "" →
        add_order orders (idLine :: custLine :: rest2) =
          some ("錯誤：顧客姓名不可為空", orders, false))
    ∧ (∀ (orders : List Order) (inputs : List String) (msg : String)
         (orders' : List Order) (saved : Bool),
        add_order orders inputs = some (msg, orders', saved) →
        orders' ≠ orders → ∃ os, orders' = orders ++ [os] ∧ os.items ≠ []) := by
  refine ⟨?_, ?_, ?_, ?_⟩
  · intro orders idLine rest h
    exact add_order_empty_id orders idLine rest (by rw [h]; rfl)
  · intro orders idLine rest h1 hdup
    obtain ⟨o, ho, heq⟩ := hdup
    exact add_order_dup orders idLine rest h1
      (List.any_eq_true.mpr ⟨o, ho, beq_iff_eq.mpr heq⟩)
  · intro orders idLine custLine rest2 h1 hdup h3
    refine add_order_empty_customer orders idLine custLine rest2 h1 ?_ h3
    rw [List.any_eq_false]
    intro o ho
    simp only [beq_iff_eq]
    exact hdup o ho
  · intro orders inputs msg orders' saved hadd hchanged
    rcases add_order_cases orders inputs msg orders' saved hadd with
      ⟨_, heq⟩ | ⟨_, idLine, custLine, rest, items, restOut, _, _, _, _, hIL, hord, _⟩
    · exact absurd heq hchanged
    · exact ⟨⟨upper (strip idLine), strip custLine, items⟩, hord,
        (itemLoop_post [] rest items restOut hIL).1⟩

/-- C2 amended witness: each validation branch at a concrete input, plus a
concrete successful call appending an order with a non-empty item list. -/
theorem C2_amended_validation_witness :
    add_order [] [" ", "Bob"] = some ("錯誤：訂單編號不可為空", [], false)
    ∧ add_order [⟨"A1", "Bob", [⟨"Tea", 30, 2⟩]⟩] ["a1", "Carol"] =
        some ("錯誤：訂單編號 " ++ upper (strip "a1") ++ " 已存在",
              [⟨"A1", "Bob", [⟨"Tea", 30, 2⟩]⟩], false)
    ∧ add_order [] ["B2", " ", "Tea"] = some ("錯誤：顧客姓名不可為空", [], false)
    ∧ ∃ os, [(⟨"A1", "Bob", [⟨"Tea", 30, 2⟩]⟩ : Order)] = [] ++ [os] ∧ os.items ≠ [] :=
  ⟨C2_amended_validation.1 [] " " ["Bob"] (by decide),
   C2_amended_validation.2.1 [⟨"A1", "Bob", [⟨"Tea", 30, 2⟩]⟩] "a1" ["Carol"]
     (by decide) ⟨⟨"A1", "Bob", [⟨"Tea", 30, 2⟩]⟩, by decide, by decide⟩,
   C2_amended_validation.2.2.1 [] "B2" " " ["Tea"] (by decide) (by decide) (by decide),
   C2_amended_validation.2.2.2 [] ["A1", "Bob", "Tea", "30", "2", ""] "訂單 A1 新增成功"
     [⟨"A1", "Bob", [⟨"Tea", 30, 2⟩]⟩] true (by decide) (by decide)⟩

/-- C4: a returning `add_order` call that changed the collection appended
exactly one order whose id is the entered id upper-cased (non-empty, absent
from the stored ids), whose customer is the entered non-empty name and whose
items are those accepted by the item loop; the collection was saved and the
message contains the id. -/
theorem C4_add_success (orders : List Order) (inputs : List String)
    (msg : String) (orders' : List Order) (saved : Bool)
    (hadd : add_order orders inputs = some (msg, orders', saved))
    (hchanged : orders' ≠ orders) :
    saved = true ∧
    ∃ idLine custLine rest items restOut,
      inputs = idLine :: custLine :: rest ∧
      orders' = orders ++ [⟨upper (strip idLine), strip custLine, items⟩] ∧
      upper (strip idLine) ≠ "" ∧
      (∀ o ∈ orders, o.order_id ≠ upper (strip idLine)) ∧
      strip custLine ≠ "" ∧
      itemLoop [] rest = some (items, restOut) ∧
      ∃ pre post, msg = pre ++ upper (strip idLine) ++ post := by
  rcases add_order_cases orders inputs msg orders' saved hadd with
    ⟨_, heq⟩ | ⟨hs, idLine, custLine, rest, items, restOut, hin, h1, h2, h3, hIL, hord, hmsg⟩
  · exact absurd heq hchanged
  · exact ⟨hs, idLine, custLine, rest, items, restOut, hin, hord, h1, h2, h3, hIL,
      "訂單 ", " 新增成功", hmsg⟩

/-- C4 witness: a concrete successful add. -/
theorem C4_add_success_witness :
    true = true ∧
    ∃ idLine custLine rest items restOut,
      ["a1", " Carol ", "Tea", "30", "2", ""] = idLine :: custLine :: rest ∧
      [(⟨"A1", "Carol", [⟨"Tea", 30, 2⟩]⟩ : Order)] =
        [] ++ [⟨upper (strip idLine), strip custLine, items⟩] ∧
      upper (strip idLine) ≠ "" ∧
      (∀ o ∈ ([] : List Order), o.order_id ≠ upper (strip idLine)) ∧
      strip custLine ≠ "" ∧
      itemLoop [] rest = some (items, restOut) ∧
      ∃ pre post, "訂單 A1 新增成功" = pre ++ upper (strip idLine) ++ post :=
  C4_add_success [] ["a1", " Carol ", "Tea", "30", "2", ""] "訂單 A1 新增成功"
    [⟨"A1", "Carol", [⟨"Tea", 30, 2⟩]⟩] true (by decide) (by decide)

/-- C10: every order appended by a returning `add_order` call has only items
with non-empty names, non-negative prices and positive quantities; an empty
name with items already entered ends entry without creating an item; and a
parse or validation failure at the price or quantity prompt discards the
whole in-progress item, leaving the accumulated items untouched. -/
theorem C10_item_invariants :
    (∀ (orders : List Order) (inputs : List String) (msg : String)
       (orders' : List Order),
      add_order orders inputs = some (msg, orders', true) →
      ∃ o, orders' = orders ++ [o] ∧
        ∀ i ∈ o.items, i.name ≠ "" ∧ 0 ≤ i.price ∧ 1 ≤ i.quantity)
    ∧ (∀ (items : List Item) (nameLine : String) (rest : List String),
        strip nameLine = "" → items ≠ [] →
        itemLoop items (nameLine :: rest) = some (items, rest))
    ∧ (∀ (items : List Item) (nameLine priceLine : String) (rest2 : List String),
        strip nameLine ≠ "" → pyInt priceLine = none →
        itemLoop items (nameLine :: priceLine :: rest2) = itemLoop items rest2)
    ∧ (∀ (items : List Item) (nameLine priceLine : String) (rest2 : List String) (p : Int),
        strip nameLine ≠ "" → pyInt priceLine = some p → p < 0 →
        itemLoop items (nameLine :: priceLine :: rest2) = itemLoop items rest2)
    ∧ (∀ (items : List Item) (nameLine priceLine qtyLine : String)
         (rest3 : List String) (p : Int),
        strip nameLine ≠ "" → pyInt priceLine = some p → ¬p < 0 →
        pyInt qtyLine = none →
        itemLoop items (nameLine :: priceLine :: qtyLine :: rest3) = itemLoop items rest3)
    ∧ (∀ (items : List Item) (nameLine priceLine qtyLine : String)
         (rest3 : List String) (p q : Int),
        strip nameLine ≠ "" → pyInt priceLine = some p → ¬p < 0 →
        pyInt qtyLine = some q → q ≤ 0 →
        itemLoop items (nameLine :: priceLine :: qtyLine :: rest3) = itemLoop items rest3) := by
  refine ⟨?_, ?_, ?_, ?_, ?_, ?_⟩
  · intro orders inputs msg orders' hadd
    rcases add_order_cases orders inputs msg orders' true hadd with
      ⟨hf, _⟩ | ⟨_, idLine, custLine, rest, items, restOut, _, _, _, _, hIL, hord, _⟩
    · exact absurd hf (by simp)
    · exact ⟨⟨upper (strip idLine), strip custLine, items⟩, hord,
        (itemLoop_post [] rest items restOut hIL).2 (by simp)⟩
  · intro items nameLine rest hname hitems
    rw [itemLoop_empty_name items nameLine rest hname, if_neg hitems]
  · intro items nameLine priceLine rest2 hname hp
    simp [itemLoop, hname, hp]
  · intro items nameLine priceLine rest2 p hname hp hneg
    simp [itemLoop, hname, hp, hneg]
  · intro items nameLine priceLine qtyLine rest3 p hname hp hpos hq
    simp [itemLoop, hname, hp, hpos, hq]
  · intro items nameLine priceLine qtyLine rest3 p q hname hp hpos hq hq0
    simp [itemLoop, hname, hp, hpos, hq, hq0]

/-- C10 witness: a concrete successful add yields only valid items; an empty
name line ends entry; a bad price line discards the in-progress item. -/
theorem C10_item_invariants_witness :
    (∃ o, [(⟨"A1", "Bob", [⟨"Tea", 30, 2⟩]⟩ : Order)] = [] ++ [o] ∧
      ∀ i ∈ o.items, i.name ≠ "" ∧ 0 ≤ i.price ∧ 1 ≤ i.quantity)
    ∧ itemLoop [⟨"Tea", 30, 2⟩] ["", "x"] = some ([⟨"Tea", 30, 2⟩], ["x"])
    ∧ itemLoop [] ["Soup", "abc", "Tea", "30", "2", ""] =
        itemLoop [] ["Tea", "30", "2", ""] :=
  ⟨C10_item_invariants.1 [] ["A1", "Bob", "Tea", "30", "2", ""] "訂單 A1 新增成功"
     [⟨"A1", "Bob", [⟨"Tea", 30, 2⟩]⟩] (by decide),
   C10_item_invariants.2.1 [⟨"Tea", 30, 2⟩] "" ["x"] (by decide) (by decide),
   C10_item_invariants.2.2.1 [] "Soup" "abc" ["Tea", "30", "2", ""] (by decide) (by decide)⟩
